import Mathlib

/-!
Shallow embedding of `src/arepas.py`, a pandas pipeline that builds a
training dataset from cooking metrics, faulty intervals and a batch
registry.

Modelling conventions:
* A DataFrame is a `List` of structured rows (ordered, duplicates allowed).
* Instants (pandas datetimes) are `Int` minutes; a failed `pd_to_datetime`
  coercion (NaT) is `none` in an `Option Int`.
* Pandas comparisons `>=` / `<=` against NaT are `False`; `tsGE` / `tsLE`
  below return `false` whenever either side is `none`, exactly as a
  comparison involving NaT evaluates in a pandas boolean mask.
* Numeric metric values are `Option ℚ` (`none` = NaN); the pandas `mean`
  aggregation skips NaN and yields NaN on an all-NaN column.
-/

namespace Arepas

/-- Row of the cooking-metrics table (columns of `cooking_metrics.csv`). -/
structure MetricRow where
  machine_id : String
  timestamp : Option Int
  batch_id : String
  metric_1 : Option ℚ
  metric_2 : Option ℚ
deriving DecidableEq, Repr

/-- Row of the faulty-intervals table (columns of `faulty_intervals.csv`).
`start_time` / `end_time` are `none` when `pd_to_datetime(..., errors='coerce')`
failed to parse the raw value. -/
structure FaultyInterval where
  machine_id : String
  start_time : Option Int
  end_time : Option Int
deriving DecidableEq, Repr

/-- Row of the batch-registry table (columns of `batch_registry.csv`). -/
structure BatchEntry where
  batch_id : String
  arepa_type : String
deriving DecidableEq, Repr

/-- Pandas `a >= b` on datetimes: `False` when either side is NaT. -/
def tsGE (a b : Option Int) : Bool :=
  match a, b with
  | some x, some y => decide (y ≤ x)
  | _, _ => false

/-- Pandas `a <= b` on datetimes: `False` when either side is NaT. -/
def tsLE (a b : Option Int) : Bool :=
  match a, b with
  | some x, some y => decide (x ≤ y)
  | _, _ => false

/-- `filter_cooking_data` (src/arepas.py lines 41-59): boolean-mask filter
`(machine_id == machine) & (timestamp >= start_time) & (timestamp <= end_time)`.
`start_time` / `end_time` are genuine datetimes (parsed by
`datetime.fromisoformat` in the caller), hence plain `Int`s here. -/
def filter_cooking_data (cooking_metrics : List MetricRow) (machine : String)
    (start_time end_time : Int) : List MetricRow :=
  cooking_metrics.filter fun r =>
    (r.machine_id == machine) && tsGE r.timestamp (some start_time) &&
      tsLE r.timestamp (some end_time)

/-- `filter_faulty_intervals` (src/arepas.py lines 62-82): iterate the interval
rows in order; for each row with matching `machine_id`, drop the metric rows
satisfying `(timestamp >= start_time) & (timestamp <= end_time)`. -/
def filter_faulty_intervals (faulty_intervals : List FaultyInterval)
    (filtered_metrics : List MetricRow) (machine_id : String) : List MetricRow :=
  faulty_intervals.foldl
    (fun metrics row =>
      if row.machine_id == machine_id then
        metrics.filter fun m =>
          !(tsGE m.timestamp row.start_time && tsLE m.timestamp row.end_time)
      else metrics)
    filtered_metrics

/-- The semantic "timestamp lies in the closed interval" predicate of the
spec: all three instants are actual (non-null) and `start ≤ t ≤ end`. -/
def inFaultyInterval (ts : Option Int) (i : FaultyInterval) : Prop :=
  ∃ t s e, ts = some t ∧ i.start_time = some s ∧ i.end_time = some e ∧
    s ≤ t ∧ t ≤ e

theorem inFaultyInterval_iff_mask (ts : Option Int) (i : FaultyInterval) :
    inFaultyInterval ts i ↔ (tsGE ts i.start_time && tsLE ts i.end_time) = true := by
  unfold inFaultyInterval tsGE tsLE
  cases ts with
  | none => simp
  | some t =>
    cases hs : i.start_time with
    | none => simp
    | some s =>
      cases he : i.end_time with
      | none => simp
      | some e =>
        simp only [Bool.and_eq_true, decide_eq_true_eq]
        constructor
        · rintro ⟨t', s', e', ht, hs', he', h1, h2⟩
          cases ht; cases hs'; cases he'; exact ⟨h1, h2⟩
        · rintro ⟨h1, h2⟩; exact ⟨t, s, e, rfl, rfl, rfl, h1, h2⟩

/-- One pass of the interval loop, as a named step function. -/
def faultyStep (machine_id : String) (metrics : List MetricRow)
    (row : FaultyInterval) : List MetricRow :=
  if row.machine_id == machine_id then
    metrics.filter fun m =>
      !(tsGE m.timestamp row.start_time && tsLE m.timestamp row.end_time)
  else metrics

theorem filter_faulty_intervals_eq_foldl (fi : List FaultyInterval)
    (ms : List MetricRow) (mid : String) :
    filter_faulty_intervals fi ms mid = fi.foldl (faultyStep mid) ms := rfl

theorem mem_faultyStep (mid : String) (ms : List MetricRow)
    (i : FaultyInterval) (r : MetricRow) :
    r ∈ faultyStep mid ms i ↔
      r ∈ ms ∧ ¬(i.machine_id = mid ∧ inFaultyInterval r.timestamp i) := by
  unfold faultyStep
  by_cases h : i.machine_id = mid
  · simp only [h, beq_self_eq_true, if_true, List.mem_filter,
      inFaultyInterval_iff_mask, Bool.not_eq_true', Bool.and_eq_false_iff,
      not_and, true_implies]
    constructor
    · rintro ⟨hr, hmask⟩
      refine ⟨hr, fun hmask' => ?_⟩
      rcases Bool.and_eq_true .. |>.mp hmask' with ⟨h1, h2⟩
      rcases hmask with h1' | h2' <;> simp_all
    · rintro ⟨hr, hmask⟩
      refine ⟨hr, ?_⟩
      cases h1 : tsGE r.timestamp i.start_time with
      | false => left; rfl
      | true =>
        cases h2 : tsLE r.timestamp i.end_time with
        | false => right; rfl
        | true => exact absurd ((Bool.and_eq_true ..).mpr ⟨h1, h2⟩) hmask
  · simp [h, beq_iff_eq]

theorem mem_foldl_faultyStep (mid : String) (fi : List FaultyInterval)
    (ms : List MetricRow) (r : MetricRow) :
    r ∈ fi.foldl (faultyStep mid) ms ↔
      r ∈ ms ∧ ∀ i ∈ fi, ¬(i.machine_id = mid ∧ inFaultyInterval r.timestamp i) := by
  induction fi generalizing ms with
  | nil => simp
  | cons i rest ih =>
    rw [List.foldl_cons, ih, mem_faultyStep]
    constructor
    · rintro ⟨⟨hr, hi⟩, hrest⟩
      refine ⟨hr, ?_⟩
      intro j hj
      rcases List.mem_cons.mp hj with h | h
      · subst h; exact hi
      · exact hrest j h
    · rintro ⟨hr, hall⟩
      exact ⟨⟨hr, hall i (List.mem_cons_self i rest)⟩,
        fun j hj => hall j (List.mem_cons_of_mem i hj)⟩

/-- Row of the merged table: `pd_merge(filtered_metrics, batch_registry,
on='batch_id')` keeps every column of both inputs (the join key appears
once). -/
structure JoinedRow where
  machine_id : String
  timestamp : Option Int
  batch_id : String
  metric_1 : Option ℚ
  metric_2 : Option ℚ
  arepa_type : String
deriving DecidableEq, Repr

/-- Combine one metric row with one matching registry entry. -/
def joinRows (m : MetricRow) (b : BatchEntry) : JoinedRow :=
  ⟨m.machine_id, m.timestamp, m.batch_id, m.metric_1, m.metric_2, b.arepa_type⟩

/-- `pd_merge(left, right, on='batch_id')` (src/arepas.py line 166): inner
join; for each left row in order, one output row per matching right row. -/
def pd_merge (filtered_metrics : List MetricRow)
    (batch_registry : List BatchEntry) : List JoinedRow :=
  filtered_metrics.flatMap fun m =>
    (batch_registry.filter fun b => b.batch_id == m.batch_id).map (joinRows m)

/-- `pd_Grouper(key='timestamp', freq='h')`: truncate an instant (minutes)
down to the start of its clock hour. -/
def hourBucket (t : Int) : Int := 60 * Int.fdiv t 60

/-- Group key of a joined row under the hourly Grouper: `none` when the
timestamp is NaT (such rows are dropped by the pandas groupby). -/
def rowKey (r : JoinedRow) : Option (Int × String) :=
  r.timestamp.map fun t => (hourBucket t, r.arepa_type)

/-- Ascending lexicographic order on group keys; pandas `groupby` emits
groups sorted by key (its default `sort=True`). -/
def keyLE (x y : Int × String) : Prop :=
  x.1 < y.1 ∨ (x.1 = y.1 ∧ x.2 ≤ y.2)

instance : DecidableRel keyLE := fun x y => by unfold keyLE; infer_instance

/-- Pandas `mean` aggregation over a column: NaN values are skipped (they
arrive here already removed, as the `filterMap` argument); an empty value
list (all-NaN column) yields NaN (`none`). -/
def meanOpt (vs : List ℚ) : Option ℚ :=
  if vs.isEmpty then none else some (vs.sum / vs.length)

/-- Row of the aggregated table produced by the hourly group-by. -/
structure AggRow where
  timestamp : Int
  arepa_type : String
  metric_1 : Option ℚ
  metric_2 : Option ℚ
deriving DecidableEq, Repr

/-- The members of the group with key `k`. -/
def groupRows (merged_data : List JoinedRow) (k : Int × String) : List JoinedRow :=
  merged_data.filter fun r => rowKey r = some k

/-- The aggregate row emitted for group key `k`. -/
def aggRowOf (merged_data : List JoinedRow) (k : Int × String) : AggRow :=
  { timestamp := k.1
    arepa_type := k.2
    metric_1 := meanOpt ((groupRows merged_data k).filterMap fun r => r.metric_1)
    metric_2 := meanOpt ((groupRows merged_data k).filterMap fun r => r.metric_2) }

/-- `group_by_hourly_average_cooking_metrics` (src/arepas.py lines 85-102):
group by `(Grouper(key='timestamp', freq='h'), 'arepa_type')`, aggregate
`metric_1` / `metric_2` with `mean`, `reset_index`. Rows whose timestamp is
NaT have no key and are dropped; group keys come out sorted ascending. -/
def group_by_hourly_average_cooking_metrics
    (merged_data : List JoinedRow) : List AggRow :=
  (((merged_data.filterMap rowKey).dedup).insertionSort keyLE).map
    (aggRowOf merged_data)

/-- `filter_by_arepa_type` (src/arepas.py lines 105-116): boolean-mask
filter `merged_data['arepa_type'] == arepa` — byte-exact string equality. -/
def filter_by_arepa_type (merged_data : List AggRow) (arepa : String) : List AggRow :=
  merged_data.filter fun r => r.arepa_type == arepa

/-- The pure pipeline core of `generate_training_dataset` (src/arepas.py
lines 119-178): the stages after the three loads and the ISO parsing of the
window bounds, composed exactly in the source's order. -/
def generate_training_dataset_core (cooking_metrics : List MetricRow)
    (faulty_intervals : List FaultyInterval) (batch_registry : List BatchEntry)
    (machine_id : String) (arepa_type_name : String)
    (start_datetime end_datetime : Int) : List AggRow :=
  let filtered_metrics :=
    filter_cooking_data cooking_metrics machine_id start_datetime end_datetime
  let excluded_metrics :=
    filter_faulty_intervals faulty_intervals filtered_metrics machine_id
  let merged_data := pd_merge excluded_metrics batch_registry
  let hourly_avg_metrics := group_by_hourly_average_cooking_metrics merged_data
  filter_by_arepa_type hourly_avg_metrics arepa_type_name

/-- `FileNotFoundError` from `pd_import_csv`, logged and re-raised by
`load_dataset` unmodified (the spec's `SourceNotFound`). -/
inductive LoadError where
  | SourceNotFound
deriving DecidableEq, Repr

/-- A cell after loading: either untouched raw text or a coerced timestamp,
`ts none` standing for NaT. -/
inductive CellValue where
  | raw (s : String)
  | ts (t : Option Int)
deriving DecidableEq, Repr

/-- One row of a raw delimited file: column name paired with cell text. -/
def RawRow : Type := List (String × String)

/-- Column-wise coercion of one cell, modelling
`pd_to_datetime(file_dataset[col], errors='coerce')` applied to the columns
of `date_columns` that are present: an unparsable value becomes `ts none`
(NaT) instead of raising. `parse` abstracts the datetime parser. -/
def coerceCell (date_columns : List String) (parse : String → Option Int)
    (cell : String × String) : String × CellValue :=
  if cell.1 ∈ date_columns then (cell.1, CellValue.ts (parse cell.2))
  else (cell.1, CellValue.raw cell.2)

/-- Best-effort coercion of a whole row. -/
def coerceRow (date_columns : List String) (parse : String → Option Int)
    (r : RawRow) : List (String × CellValue) :=
  r.map (coerceCell date_columns parse)

/-- `load_dataset` (src/arepas.py lines 28-38). The file system is modelled
as `Option (List RawRow)`: `none` is an unreadable path, on which
`pd_import_csv` raises `FileNotFoundError` and `load_dataset` re-raises it;
`some rows` is the parsed delimited file, whose declared date columns are
then coerced row by row. -/
def load_dataset (file : Option (List RawRow)) (date_columns : List String)
    (parse : String → Option Int) :
    Except LoadError (List (List (String × CellValue))) :=
  match file with
  | none => Except.error LoadError.SourceNotFound
  | some rows => Except.ok (rows.map (coerceRow date_columns parse))

theorem tsGE_none_right (a : Option Int) : tsGE a none = false := by
  cases a <;> rfl

theorem tsLE_none_right (a : Option Int) : tsLE a none = false := by
  cases a <;> rfl

theorem sublist_foldl_faultyStep (mid : String) (fi : List FaultyInterval)
    (ms : List MetricRow) : List.Sublist (fi.foldl (faultyStep mid) ms) ms := by
  induction fi generalizing ms with
  | nil => exact List.Sublist.refl ms
  | cons i rest ih =>
    rw [List.foldl_cons]
    refine (ih (faultyStep mid ms i)).trans ?_
    unfold faultyStep
    by_cases h : i.machine_id == mid
    · simp only [h, if_true]
      exact List.filter_sublist ms
    · simp [h]

/-- C1: `filter_faulty_intervals` removes exactly the metric rows whose
timestamp lies in the closed range of at least one interval with the target
`machine_id` (set difference over the union of matching intervals); other
machines' intervals are ignored, the empty interval table is the identity,
and a degenerate interval `start_time = end_time = t` removes exactly the
rows with timestamp `t`. -/
theorem filter_faulty_intervals_set_difference
    (fi : List FaultyInterval) (ms : List MetricRow) (mid : String) :
    (∀ r : MetricRow,
      r ∈ filter_faulty_intervals fi ms mid ↔
        r ∈ ms ∧ ¬ ∃ i ∈ fi, i.machine_id = mid ∧ inFaultyInterval r.timestamp i) ∧
    filter_faulty_intervals [] ms mid = ms ∧
    (∀ (t : Int) (r : MetricRow),
      r ∈ filter_faulty_intervals [⟨mid, some t, some t⟩] ms mid ↔
        r ∈ ms ∧ ¬ r.timestamp = some t) := by
  refine ⟨?_, rfl, ?_⟩
  · intro r
    rw [filter_faulty_intervals_eq_foldl, mem_foldl_faultyStep]
    simp only [not_exists, not_and]
  · intro t r
    rw [filter_faulty_intervals_eq_foldl]
    rw [show [(⟨mid, some t, some t⟩ : FaultyInterval)].foldl (faultyStep mid) ms
        = faultyStep mid ms ⟨mid, some t, some t⟩ from rfl]
    rw [mem_faultyStep]
    unfold inFaultyInterval
    constructor
    · rintro ⟨hr, hni⟩
      refine ⟨hr, fun hts => hni ⟨rfl, t, t, t, hts, rfl, rfl, le_refl t, le_refl t⟩⟩
    · rintro ⟨hr, hnts⟩
      refine ⟨hr, fun hcon => ?_⟩
      rcases hcon with ⟨-, t', s', e', hts, hs, he, h1, h2⟩
      cases hs; cases he
      exact hnts (by rw [hts]; congr 1; omega)

/-- C2: a row survives `filter_cooking_data` iff its `machine_id` equals the
target exactly and its timestamp is an actual instant inside the closed
window `[s, e]`; a row with a null timestamp never survives, and the output
is a subsequence of the input (relative order preserved). -/
theorem filter_cooking_data_characterisation
    (ms : List MetricRow) (machine : String) (s e : Int) :
    (∀ r : MetricRow,
      r ∈ filter_cooking_data ms machine s e ↔
        r ∈ ms ∧ r.machine_id = machine ∧
          ∃ t, r.timestamp = some t ∧ s ≤ t ∧ t ≤ e) ∧
    (∀ r : MetricRow,
      ¬(r.timestamp = none ∧ r ∈ filter_cooking_data ms machine s e)) ∧
    List.Sublist (filter_cooking_data ms machine s e) ms := by
  have hmem : ∀ r : MetricRow,
      r ∈ filter_cooking_data ms machine s e ↔
        r ∈ ms ∧ r.machine_id = machine ∧
          ∃ t, r.timestamp = some t ∧ s ≤ t ∧ t ≤ e := by
    intro r
    unfold filter_cooking_data
    rw [List.mem_filter]
    simp only [Bool.and_eq_true, beq_iff_eq]
    constructor
    · rintro ⟨hr, ⟨hmach, hge⟩, hle⟩
      refine ⟨hr, hmach, ?_⟩
      unfold tsGE at hge
      unfold tsLE at hle
      cases hts : r.timestamp with
      | none => rw [hts] at hge; exact absurd hge (by simp)
      | some t =>
        rw [hts] at hge hle
        exact ⟨t, rfl, by simpa using hge, by simpa using hle⟩
    · rintro ⟨hr, hmach, t, hts, h1, h2⟩
      refine ⟨hr, ⟨hmach, ?_⟩, ?_⟩
      · unfold tsGE; rw [hts]; simpa using h1
      · unfold tsLE; rw [hts]; simpa using h2
  refine ⟨hmem, ?_, List.filter_sublist ms⟩
  rintro r ⟨hnone, hr⟩
  rcases ((hmem r).mp hr).2.2 with ⟨t, hts, -, -⟩
  rw [hnone] at hts
  exact Option.noConfusion hts

/-- C9: the output of the Faulty-Interval Excluder is a subsequence of its
input metrics table — surviving rows keep their relative order and no row
is duplicated or altered. -/
theorem filter_faulty_intervals_sublist
    (fi : List FaultyInterval) (ms : List MetricRow) (mid : String) :
    List.Sublist (filter_faulty_intervals fi ms mid) ms := by
  rw [filter_faulty_intervals_eq_foldl]
  exact sublist_foldl_faultyStep mid fi ms

/-- C10: a faulty-interval row whose `start_time` or `end_time` failed
coercion (is null) excludes no metric rows: the pandas comparison against
NaT is false for every row, so such an interval is silently skipped. -/
theorem filter_faulty_intervals_null_bound_ignored
    (i : FaultyInterval) (fi : List FaultyInterval) (ms : List MetricRow)
    (mid : String) (h : i.start_time = none ∨ i.end_time = none) :
    filter_faulty_intervals (i :: fi) ms mid = filter_faulty_intervals fi ms mid := by
  rw [filter_faulty_intervals_eq_foldl, filter_faulty_intervals_eq_foldl,
    List.foldl_cons]
  have hstep : faultyStep mid ms i = ms := by
    unfold faultyStep
    by_cases hm : i.machine_id == mid
    · simp only [hm, if_true]
      refine List.filter_eq_self.mpr fun m _ => ?_
      rcases h with h | h
      · rw [h, tsGE_none_right]; rfl
      · rw [h, tsLE_none_right, Bool.and_false]; rfl
    · simp [hm]
  rw [hstep]

/-- Witness for C10 at a concrete interval with a null `end_time`: the
10:15 row survives even though it is past the interval's parsed start. -/
theorem filter_faulty_intervals_null_bound_ignored_witness :
    ((⟨"M1", some 600, none⟩ : FaultyInterval).start_time = none ∨
      (⟨"M1", some 600, none⟩ : FaultyInterval).end_time = none) ∧
    filter_faulty_intervals [⟨"M1", some 600, none⟩]
        [⟨"M1", some 615, "B1", some 2, some 4⟩] "M1" =
      [⟨"M1", some 615, "B1", some 2, some 4⟩] :=
  ⟨Or.inr rfl,
    filter_faulty_intervals_null_bound_ignored ⟨"M1", some 600, none⟩ []
      [⟨"M1", some 615, "B1", some 2, some 4⟩] "M1" (Or.inr rfl)⟩

theorem length_filter_batch_id (reg : List BatchEntry) (v : String)
    (h : (reg.map BatchEntry.batch_id).Nodup) :
    (reg.filter fun b => b.batch_id == v).length =
      if reg.any fun b => b.batch_id == v then 1 else 0 := by
  induction reg with
  | nil => rfl
  | cons b rest ih =>
    rw [List.map_cons, List.nodup_cons] at h
    obtain ⟨hb, hrest⟩ := h
    by_cases hv : b.batch_id = v
    · have hnone : rest.filter (fun x => x.batch_id == v) = [] := by
        refine List.filter_eq_nil_iff.mpr fun x hx => ?_
        simp only [beq_iff_eq]
        intro hxv
        exact hb (List.mem_map.mpr ⟨x, hx, by rw [hxv, hv]⟩)
      rw [List.filter_cons, List.any_cons]
      simp only [hv, beq_self_eq_true, if_true, Bool.true_or, hnone]
      rfl
    · rw [List.filter_cons, List.any_cons]
      have hbv : (b.batch_id == v) = false := beq_eq_false_iff_ne.mpr hv
      simp only [hbv, Bool.false_eq_true, if_false, Bool.false_or]
      exact ih hrest

/-- C4: when registry `batch_id` values are unique, the inner join
`pd_merge` yields exactly one output row per metric row whose `batch_id`
has a registry match; metric rows without a match contribute nothing, and
every joined row's `batch_id` has a matching registry entry. -/
theorem pd_merge_inner_join_count (ms : List MetricRow) (reg : List BatchEntry)
    (h : (reg.map BatchEntry.batch_id).Nodup) :
    (pd_merge ms reg).length =
      (ms.filter fun m => reg.any fun b => b.batch_id == m.batch_id).length ∧
    (∀ j ∈ pd_merge ms reg, ∃ b ∈ reg, b.batch_id = j.batch_id) := by
  constructor
  · induction ms with
    | nil => rfl
    | cons m rest ih =>
      rw [show pd_merge (m :: rest) reg =
          ((reg.filter fun b => b.batch_id == m.batch_id).map (joinRows m)) ++
            pd_merge rest reg from rfl]
      rw [List.length_append, List.length_map,
        length_filter_batch_id reg m.batch_id h, List.filter_cons]
      by_cases hm : reg.any fun b => b.batch_id == m.batch_id
      · simp only [hm, if_true, List.length_cons]
        omega
      · simp only [hm, if_false]
        have : (reg.any fun b => b.batch_id == m.batch_id) = false :=
          Bool.not_eq_true _ |>.mp hm
        simp only [this, Bool.false_eq_true, if_false]
        omega
  · intro j hj
    rcases List.mem_flatMap.mp hj with ⟨m, hm, hjm⟩
    rcases List.mem_map.mp hjm with ⟨b, hbf, hjb⟩
    rcases List.mem_filter.mp hbf with ⟨hbreg, hbid⟩
    refine ⟨b, hbreg, ?_⟩
    rw [← hjb]
    exact beq_iff_eq.mp hbid

/-- Witness for C4 on a registry with the single batch B1 and one matching
plus one unmatched metric row: the join has exactly one row. -/
theorem pd_merge_inner_join_count_witness :
    ((([⟨"B1", "classic"⟩] : List BatchEntry).map BatchEntry.batch_id).Nodup) ∧
    ((pd_merge [⟨"M1", some 615, "B1", some 2, some 4⟩,
        ⟨"M1", some 645, "B9", some 3, some 5⟩] [⟨"B1", "classic"⟩]).length =
      (([⟨"M1", some 615, "B1", some 2, some 4⟩,
        ⟨"M1", some 645, "B9", some 3, some 5⟩] : List MetricRow).filter fun m =>
          ([⟨"B1", "classic"⟩] : List BatchEntry).any fun b =>
            b.batch_id == m.batch_id).length ∧
    (∀ j ∈ pd_merge [⟨"M1", some 615, "B1", some 2, some 4⟩,
        ⟨"M1", some 645, "B9", some 3, some 5⟩] [⟨"B1", "classic"⟩],
      ∃ b ∈ ([⟨"B1", "classic"⟩] : List BatchEntry), b.batch_id = j.batch_id)) :=
  ⟨by decide,
    pd_merge_inner_join_count
      [⟨"M1", some 615, "B1", some 2, some 4⟩,
        ⟨"M1", some 645, "B9", some 3, some 5⟩]
      [⟨"B1", "classic"⟩] (by decide)⟩

/-- The sorted list of group keys the hourly group-by iterates over. -/
def sortedKeys (merged_data : List JoinedRow) : List (Int × String) :=
  ((merged_data.filterMap rowKey).dedup).insertionSort keyLE

theorem group_by_eq_map_sortedKeys (md : List JoinedRow) :
    group_by_hourly_average_cooking_metrics md =
      (sortedKeys md).map (aggRowOf md) := rfl

theorem mem_sortedKeys (md : List JoinedRow) (k : Int × String) :
    k ∈ sortedKeys md ↔ ∃ r ∈ md, rowKey r = some k := by
  unfold sortedKeys
  rw [List.mem_insertionSort, List.mem_dedup, List.mem_filterMap]

theorem sortedKeys_nodup (md : List JoinedRow) : (sortedKeys md).Nodup :=
  (List.perm_insertionSort keyLE _).nodup_iff.mpr (List.nodup_dedup _)

theorem meanOpt_eq_ite (vs : List ℚ) :
    meanOpt vs = if vs = [] then none else some (vs.sum / vs.length) := by
  cases vs with
  | nil => rfl
  | cons x xs => rfl

/-- C3: the hourly aggregator emits exactly one row per (hour-bucket,
arepa_type) pair present in the joined data (`rowKey` truncates the
timestamp down to its clock-hour start), with that bucket start as the
row's timestamp; each output metric is the arithmetic mean of the group's
non-null values, and an all-null group yields a null mean. -/
theorem group_by_hourly_characterisation (md : List JoinedRow) :
    (∀ (b : Int) (a : String),
      (∃ row ∈ group_by_hourly_average_cooking_metrics md,
          row.timestamp = b ∧ row.arepa_type = a) ↔
        ∃ r ∈ md, rowKey r = some (b, a)) ∧
    ((group_by_hourly_average_cooking_metrics md).map
        fun row => (row.timestamp, row.arepa_type)).Nodup ∧
    (∀ row ∈ group_by_hourly_average_cooking_metrics md,
      (row.metric_1 =
        if ((md.filter fun r =>
              rowKey r = some (row.timestamp, row.arepa_type)).filterMap
                fun r => r.metric_1) = [] then none
        else some (((md.filter fun r =>
              rowKey r = some (row.timestamp, row.arepa_type)).filterMap
                fun r => r.metric_1).sum /
            ((md.filter fun r =>
              rowKey r = some (row.timestamp, row.arepa_type)).filterMap
                fun r => r.metric_1).length)) ∧
      (row.metric_2 =
        if ((md.filter fun r =>
              rowKey r = some (row.timestamp, row.arepa_type)).filterMap
                fun r => r.metric_2) = [] then none
        else some (((md.filter fun r =>
              rowKey r = some (row.timestamp, row.arepa_type)).filterMap
                fun r => r.metric_2).sum /
            ((md.filter fun r =>
              rowKey r = some (row.timestamp, row.arepa_type)).filterMap
                fun r => r.metric_2).length))) := by
  refine ⟨?_, ?_, ?_⟩
  · intro b a
    rw [group_by_eq_map_sortedKeys]
    constructor
    · rintro ⟨row, hrow, hts, hat⟩
      rcases List.mem_map.mp hrow with ⟨k, hk, hrk⟩
      have hkey : k = (b, a) := by
        rcases k with ⟨kb, ka⟩
        rw [← hrk] at hts hat
        exact Prod.ext hts hat
      rw [hkey] at hk
      exact (mem_sortedKeys md (b, a)).mp hk
    · intro hex
      have hk : (b, a) ∈ sortedKeys md := (mem_sortedKeys md (b, a)).mpr hex
      exact ⟨aggRowOf md (b, a), List.mem_map.mpr ⟨(b, a), hk, rfl⟩, rfl, rfl⟩
  · rw [group_by_eq_map_sortedKeys, List.map_map]
    have : ((fun row : AggRow => (row.timestamp, row.arepa_type)) ∘ aggRowOf md) =
        fun k : Int × String => k := by
      funext k
      rcases k with ⟨kb, ka⟩
      rfl
    rw [this]
    simpa using sortedKeys_nodup md
  · intro row hrow
    rw [group_by_eq_map_sortedKeys] at hrow
    rcases List.mem_map.mp hrow with ⟨k, hk, hrk⟩
    have hts : row.timestamp = k.1 := by rw [← hrk]; rfl
    have hat : row.arepa_type = k.2 := by rw [← hrk]; rfl
    have hkey : (row.timestamp, row.arepa_type) = k := by
      rw [hts, hat]
    have h1 : row.metric_1 =
        meanOpt ((groupRows md k).filterMap fun r => r.metric_1) := by
      rw [← hrk]; rfl
    have h2 : row.metric_2 =
        meanOpt ((groupRows md k).filterMap fun r => r.metric_2) := by
      rw [← hrk]; rfl
    rw [hkey, h1, h2, meanOpt_eq_ite, meanOpt_eq_ite]
    exact ⟨rfl, rfl⟩

/-- Witness for C3 at one concrete joined row. -/
theorem group_by_hourly_characterisation_witness :
    (∀ (b : Int) (a : String),
      (∃ row ∈ group_by_hourly_average_cooking_metrics
          [⟨"M1", some 615, "B1", some 2, some 4, "classic"⟩],
          row.timestamp = b ∧ row.arepa_type = a) ↔
        ∃ r ∈ [(⟨"M1", some 615, "B1", some 2, some 4, "classic"⟩ : JoinedRow)],
          rowKey r = some (b, a)) :=
  (group_by_hourly_characterisation
    [⟨"M1", some 615, "B1", some 2, some 4, "classic"⟩]).1

/-- C5: the end-to-end scenario. Metrics (M1, 10:15, B1, 2, 4),
(M1, 10:45, B1, 3, 5), (M1, 11:05, B1, 10, 10); faulty interval
M1 11:00-11:30; registry (B1, "classic"); window [10:00, 12:00]; machine
M1; requested type "classic". Instants are minutes of the day, so
10:00 = 600, 10:15 = 615, 10:45 = 645, 11:00 = 660, 11:05 = 665,
11:30 = 690, 12:00 = 720. The result is exactly one row:
(timestamp 10:00, "classic", metric_1 = 5/2, metric_2 = 9/2). -/
theorem generate_training_dataset_end_to_end :
    generate_training_dataset_core
      [⟨"M1", some 615, "B1", some 2, some 4⟩,
       ⟨"M1", some 645, "B1", some 3, some 5⟩,
       ⟨"M1", some 665, "B1", some 10, some 10⟩]
      [⟨"M1", some 660, some 690⟩]
      [⟨"B1", "classic"⟩]
      "M1" "classic" 600 720 =
      [⟨600, "classic", some (5 / 2), some (9 / 2)⟩] := by
  have h : generate_training_dataset_core
      [⟨"M1", some 615, "B1", some 2, some 4⟩,
       ⟨"M1", some 645, "B1", some 3, some 5⟩,
       ⟨"M1", some 665, "B1", some 10, some 10⟩]
      [⟨"M1", some 660, some 690⟩]
      [⟨"B1", "classic"⟩]
      "M1" "classic" 600 720 =
      [⟨600, "classic", meanOpt [2, 3], meanOpt [4, 5]⟩] := rfl
  rw [h]
  simp only [meanOpt, List.isEmpty_cons, Bool.false_eq_true, if_false,
    List.sum_cons, List.sum_nil, List.length_cons, List.length_nil]
  norm_num

/-- C7: the Type Filter is idempotent — filtering an already-filtered table
by the same type string returns it unchanged — and its matching is exact
string equality (no normalisation): a row survives iff its `arepa_type` is
byte-for-byte equal to the requested type. -/
theorem filter_by_arepa_type_idempotent (t : List AggRow) (a : String) :
    filter_by_arepa_type (filter_by_arepa_type t a) a = filter_by_arepa_type t a ∧
    (∀ r : AggRow, r ∈ filter_by_arepa_type t a ↔ r ∈ t ∧ r.arepa_type = a) := by
  constructor
  · unfold filter_by_arepa_type
    rw [List.filter_filter]
    congr 1
    funext r
    rw [Bool.and_self]
  · intro r
    unfold filter_by_arepa_type
    rw [List.mem_filter]
    simp only [beq_iff_eq]

/-- C8: when the requested `arepa_type` appears nowhere in the aggregated
data, the pipeline still completes (it is a total function) and returns the
empty table. -/
theorem generate_training_dataset_absent_type_empty
    (cooking : List MetricRow) (faulty : List FaultyInterval)
    (registry : List BatchEntry) (mid a : String) (s e : Int)
    (h : ∀ row ∈ group_by_hourly_average_cooking_metrics
        (pd_merge (filter_faulty_intervals faulty
          (filter_cooking_data cooking mid s e) mid) registry),
        row.arepa_type ≠ a) :
    generate_training_dataset_core cooking faulty registry mid a s e = [] := by
  unfold generate_training_dataset_core filter_by_arepa_type
  refine List.filter_eq_nil_iff.mpr fun row hrow => ?_
  simpa using h row hrow

/-- Witness for C8: requesting type "rellena" when the registry only maps
B1 to "classic" yields the empty output. -/
theorem generate_training_dataset_absent_type_empty_witness :
    (∀ row ∈ group_by_hourly_average_cooking_metrics
        (pd_merge (filter_faulty_intervals []
          (filter_cooking_data [⟨"M1", some 615, "B1", some 2, some 4⟩] "M1" 600 720) "M1")
          [⟨"B1", "classic"⟩]),
        row.arepa_type ≠ "rellena") ∧
    generate_training_dataset_core [⟨"M1", some 615, "B1", some 2, some 4⟩]
      [] [⟨"B1", "classic"⟩] "M1" "rellena" 600 720 = [] := by
  have h : ∀ row ∈ group_by_hourly_average_cooking_metrics
      (pd_merge (filter_faulty_intervals []
        (filter_cooking_data [⟨"M1", some 615, "B1", some 2, some 4⟩] "M1" 600 720) "M1")
        [⟨"B1", "classic"⟩]),
      row.arepa_type ≠ "rellena" := by
    intro row hrow
    have hr : row = ⟨600, "classic", meanOpt [2], meanOpt [4]⟩ := by
      have : group_by_hourly_average_cooking_metrics
          (pd_merge (filter_faulty_intervals []
            (filter_cooking_data [⟨"M1", some 615, "B1", some 2, some 4⟩] "M1" 600 720) "M1")
            [⟨"B1", "classic"⟩]) =
          [⟨600, "classic", meanOpt [2], meanOpt [4]⟩] := rfl
      rw [this] at hrow
      simpa using hrow
    rw [hr]
    decide
  exact ⟨h, generate_training_dataset_absent_type_empty
    [⟨"M1", some 615, "B1", some 2, some 4⟩] [] [⟨"B1", "classic"⟩]
    "M1" "rellena" 600 720 h⟩

/-- C6: `load_dataset` fails with `SourceNotFound` exactly when the file is
unreadable, passing the error through unmodified; on a readable file it
always succeeds, and an unparsable value in a declared timestamp column
becomes a null (NaT) timestamp in that cell instead of raising. -/
theorem load_dataset_source_not_found_and_null_coercion
    (dc : List String) (parse : String → Option Int) :
    (∀ file : Option (List RawRow),
      load_dataset file dc parse = Except.error LoadError.SourceNotFound ↔
        file = none) ∧
    (∀ rows : List RawRow,
      load_dataset (some rows) dc parse =
        Except.ok (rows.map (coerceRow dc parse))) ∧
    (∀ c v, c ∈ dc → parse v = none →
      coerceCell dc parse (c, v) = (c, CellValue.ts none)) := by
  refine ⟨?_, fun rows => rfl, ?_⟩
  · intro file
    cases file with
    | none => simp only [load_dataset, true_iff]
    | some rows => simp [load_dataset]
  · intro c v hc hv
    unfold coerceCell
    simp only [hc, if_pos, hv]

/-- Witness for C6: a missing file errors, and the unparsable value
"garbage" in the declared `timestamp` column becomes a NaT cell. -/
theorem load_dataset_source_not_found_witness :
    (("timestamp" : String) ∈ ["timestamp"]) ∧
    coerceCell ["timestamp"] (fun _ => (none : Option Int)) ("timestamp", "garbage") =
      ("timestamp", CellValue.ts none) :=
  ⟨List.mem_singleton.mpr rfl,
    (load_dataset_source_not_found_and_null_coercion ["timestamp"]
      (fun _ => (none : Option Int))).2.2 "timestamp" "garbage"
      (List.mem_singleton.mpr rfl) rfl⟩

end Arepas
